import Mathlib

/-!
Shallow embedding of the price-scraper core in src/UnifiedPriceScraper.py
(class UnifiedScraper) and theorems about its behaviour.

Modelling conventions:
- Machine-level fetches are abstracted as explicit response inputs: a value of
  type Option Page stands for the outcome of one HTTP GET (none = the request
  raised and the surrounding try/except caught it), and a function
  Nat -> ApiResponse gives the response observed on each proxy-API attempt.
- Raw HTML is carried as a String together with the element tree (Dom) that
  BeautifulSoup would produce from it.  The case-insensitive substring checks
  of the source are executed on the String; the CSS-selector extraction is
  executed on the Dom.
- Bounded loops of the source (the key-rotation scan, the proxy retry loop,
  the regex scan) are embedded as fuel recursion with the same bound the
  source uses, so every definition is executable.
-/

/- ## String helpers -/

/-- Character-list prefix test, used to build the substring test. -/
def charsLead : List Char → List Char → Bool
  | [], _ => true
  | _ :: _, [] => false
  | a :: as, b :: bs => a = b && charsLead as bs

/-- Substring occurrence test on character lists. -/
def charsContain (needle : List Char) : List Char → Bool
  | [] => needle.isEmpty
  | c :: rest => charsLead needle (c :: rest) || charsContain needle rest

/-- Models the Python test (needle in hay.lower()) for an ASCII needle. -/
def lowerHas (hay needle : String) : Bool :=
  charsContain needle.toList (hay.toList.map Char.toLower)

/-- Models the Python test (text and (chr(36) in text or chr(8377) in text)):
the extracted text is non-empty and carries a dollar or rupee currency mark. -/
def hasCurrency (t : String) : Bool :=
  t.toList.any (fun c => c = '$' || c = '₹')

/-- Models Python str.strip: drop whitespace from both ends. -/
def pyStrip (s : String) : String :=
  String.mk (((s.toList.dropWhile Char.isWhitespace).reverse.dropWhile
    Char.isWhitespace).reverse)

/- ## Element-tree model of the parsed page -/

/-- One HTML element as BeautifulSoup exposes it: tag, id attribute, class
list, remaining attributes, and the stripped text written directly under the
element (outside of its child elements). -/
structure Node where
  tagName : String
  idAttr : String
  classes : List String
  attrs : List (String × String)
  ownText : String
deriving DecidableEq

/-- Element tree produced by parsing a page. -/
inductive Dom where
  | node : Node → List Dom → Dom

mutual

/-- Pre-order (document-order) listing of all elements of a tree, each paired
with its list of proper ancestors, nearest ancestor first. -/
def flattenD (anc : List Node) : Dom → List (Dom × List Node)
  | .node n cs => (.node n cs, anc) :: flattenL (n :: anc) cs

/-- Pre-order listing for a forest of sibling subtrees. -/
def flattenL (anc : List Node) : List Dom → List (Dom × List Node)
  | [] => []
  | d :: ds => flattenD anc d ++ flattenL anc ds

end

mutual

/-- Models el.get_text(strip=True): concatenation of the stripped text
fragments of the whole subtree, in document order. -/
def getTextD : Dom → String
  | .node n cs => n.ownText ++ getTextL cs

/-- Text concatenation over a forest of sibling subtrees. -/
def getTextL : List Dom → String
  | [] => ""
  | d :: ds => getTextD d ++ getTextL ds

end

/-- Root element of a subtree. -/
def rootNode : Dom → Node
  | .node n _ => n

/-- Class-attribute membership test for one element. -/
def nodeHasClass (n : Node) (c : String) : Bool :=
  n.classes.contains c

/-- Attribute-equality test for one element. -/
def nodeHasAttr (n : Node) (a v : String) : Bool :=
  n.attrs.contains (a, v)

/-- Simple CSS selectors appearing in the source: a class selector, a class
selector with a :not attribute filter, an id selector, and an
attribute-equality selector. -/
inductive SimpleSel where
  | cls : String → SimpleSel
  | clsNotAttr : String → String → String → SimpleSel
  | idSel : String → SimpleSel
  | attrEq : String → String → SimpleSel
deriving DecidableEq

/-- Whether a single element matches a simple selector. -/
def matchesSimple (sel : SimpleSel) (n : Node) : Bool :=
  match sel with
  | .cls c => nodeHasClass n c
  | .clsNotAttr c a v => nodeHasClass n c && !(nodeHasAttr n a v)
  | .idSel i => n.idAttr = i
  | .attrEq a v => nodeHasAttr n a v

/-- A selector of the source: a simple selector, or a descendant combination
of two simple selectors. -/
inductive Sel where
  | simple : SimpleSel → Sel
  | desc : SimpleSel → SimpleSel → Sel
deriving DecidableEq

/-- Whether an element (with its ancestor list) is matched by a selector; a
descendant selector requires some proper ancestor to match its left part. -/
def matchesSel (sel : Sel) (n : Node) (anc : List Node) : Bool :=
  match sel with
  | .simple s => matchesSimple s n
  | .desc a d => matchesSimple d n && anc.any (fun m => matchesSimple a m)

/-- Models soup.select_one: the first element in document order matched by the
selector, returned with its ancestor list. -/
def selectOne (sel : Sel) (dom : Dom) : Option (Dom × List Node) :=
  (flattenD [] dom).find? (fun p => matchesSel sel (rootNode p.1) p.2)

/-- Models el.find_parent(attrs with data-a-strike true): some ancestor
carries the strikethrough attribute. -/
def strikeAnc (anc : List Node) : Bool :=
  anc.any (fun m => nodeHasAttr m "data-a-strike" "true")

/-- Models el.find_parent(class a-text-price): some ancestor carries the
old-price class. -/
def textPriceAnc (anc : List Node) : Bool :=
  anc.any (fun m => nodeHasClass m "a-text-price")

/- ## The Amazon price parser (_parse_amazon_prices) -/

/-- The ordered selling-price selector list of _parse_amazon_prices. -/
def sellingSelectors : List Sel :=
  [ .desc (.clsNotAttr "a-price" "data-a-strike" "true") (.cls "a-offscreen"),
    .desc (.cls "priceToPay") (.cls "a-offscreen"),
    .simple (.idSel "priceblock_ourprice"),
    .simple (.idSel "priceblock_dealprice"),
    .desc (.cls "a-price") (.cls "a-offscreen") ]

/-- The ordered reference-price (MRP) selector list of _parse_amazon_prices. -/
def mrpSelectors : List Sel :=
  [ .desc (.cls "a-text-price") (.cls "a-offscreen"),
    .desc (.cls "basisPrice") (.cls "a-offscreen"),
    .desc (.attrEq "data-a-strike" "true") (.cls "a-offscreen"),
    .simple (.idSel "priceblock_listprice") ]

/-- The selling-price selector loop of _parse_amazon_prices: take the first
selector whose first document-order match has non-empty currency text and lies
in no strikethrough or a-text-price region; otherwise fall through. -/
def sellingScan (dom : Dom) : List Sel → String
  | [] => "N/A"
  | sel :: rest =>
    match selectOne sel dom with
    | some (el, anc) =>
      let text := getTextD el
      if text ≠ "" ∧ hasCurrency text = true then
        if strikeAnc anc = true then sellingScan dom rest
        else if textPriceAnc anc = true then sellingScan dom rest
        else text
      else sellingScan dom rest
    | none => sellingScan dom rest

/-- The MRP selector loop of _parse_amazon_prices: take the first selector
whose first document-order match has non-empty currency text. -/
def mrpScan (dom : Dom) : List Sel → String
  | [] => "N/A"
  | sel :: rest =>
    match selectOne sel dom with
    | some (el, _) =>
      let text := getTextD el
      if text ≠ "" ∧ hasCurrency text = true then text else mrpScan dom rest
    | none => mrpScan dom rest

/-- Models _parse_amazon_prices: run both selector loops, then default the
MRP to the selling price when only the selling price was found.  Returns
(mrp, selling_price). -/
def parseAmazonPrices (dom : Dom) : String × String :=
  let selling := sellingScan dom sellingSelectors
  let mrp0 := mrpScan dom mrpSelectors
  (if mrp0 = "N/A" ∧ selling ≠ "N/A" then selling else mrp0, selling)

/- ## Validity classifier (_is_valid_price) -/

/-- The sentinel strings of _is_valid_price.  The Python list also holds the
value None, which cannot reach this check because every scrape path returns
strings. -/
def invalidPriceValues : List String :=
  ["N/A", "Error", "CAPTCHA", "Blocked", "", "No API Key"]

/-- Models _is_valid_price: both fields must avoid every sentinel. -/
def isValidPrice (mrp selling : String) : Bool :=
  !(invalidPriceValues.contains selling) && !(invalidPriceValues.contains mrp)

/- ## Credential pool (_get_next_api_key and _mark_key_failed) -/

/-- The credential-pool state of UnifiedScraper: the loaded key list, the
rotation cursor self.current_key_index, and the set self.failed_keys of
1-based ids marked failed. -/
structure ScraperState where
  apiKeys : List String
  currentKeyIndex : Nat
  failedKeys : Finset Nat
deriving DecidableEq

/-- The scan loop of _get_next_api_key.  The fuel argument is the attempts
budget: the source loops while attempts < len(api_keys), incrementing attempts
only when the current id is in failed_keys.  Yields the accepted key, its id,
and the cursor value after the accepting advance; none when the whole pass
found only failed ids. -/
def keyScan (keys : List String) (failed : Finset Nat) : Nat → Nat → Option (String × Nat × Nat)
  | _, 0 => none
  | idx, fuel + 1 =>
    let key := keys.getD idx ""
    let keyId := idx + 1
    let idx2 := (idx + 1) % keys.length
    if keyId ∈ failed then keyScan keys failed idx2 fuel
    else some (key, keyId, idx2)

/-- Models _get_next_api_key: none when no keys are loaded; otherwise scan one
bounded pass from the cursor; if every id is marked failed, clear failed_keys,
point the cursor past the first key, and return the first key with id 1. -/
def getNextApiKey (s : ScraperState) : ScraperState × Option (String × Nat) :=
  if s.apiKeys.isEmpty then (s, none)
  else
    match keyScan s.apiKeys s.failedKeys s.currentKeyIndex s.apiKeys.length with
    | some (key, keyId, idx2) => ({ s with currentKeyIndex := idx2 }, some (key, keyId))
    | none =>
      ({ s with failedKeys := ∅, currentKeyIndex := 1 % s.apiKeys.length },
        some (s.apiKeys.getD 0 "", 1))

/-- Models _mark_key_failed: add the id to failed_keys. -/
def markKeyFailed (s : ScraperState) (keyId : Nat) : ScraperState :=
  { s with failedKeys := insert keyId s.failedKeys }

/- ## Fetch strategies for the Amazon cascade -/

/-- Outcome of one plain HTTP GET that did not raise: the status code, the
body text, and the element tree its parse would produce. -/
structure Page where
  status : Nat
  html : String
  dom : Dom

/-- Outcome of one successful Playwright navigation: the rendered markup and
its element tree. -/
structure RenderedPage where
  html : String
  dom : Dom

/-- The bot-challenge content test of the source: the lowered body holds the
word captcha or the word robot. -/
def botMarker (html : String) : Bool :=
  lowerHas html "captcha" || lowerHas html "robot"

/-- Models _scrape_amazon_direct as a function of the request outcome: a
raised request or a non-200 status yields the N/A pair, a 200 body with
bot-challenge markers yields the CAPTCHA pair, otherwise the body is parsed. -/
def scrapeAmazonDirect (resp : Option Page) : String × String :=
  match resp with
  | none => ("N/A", "N/A")
  | some pg =>
    if pg.status = 200 then
      if botMarker pg.html then ("CAPTCHA", "CAPTCHA")
      else parseAmazonPrices pg.dom
    else ("N/A", "N/A")

/-- Models _scrape_amazon_playwright as a function of the navigation outcome:
a raised navigation yields the N/A pair, rendered markup with bot-challenge
markers yields the CAPTCHA pair, otherwise the markup is parsed. -/
def scrapeAmazonPlaywright (resp : Option RenderedPage) : String × String :=
  match resp with
  | none => ("N/A", "N/A")
  | some pg =>
    if botMarker pg.html then ("CAPTCHA", "CAPTCHA")
    else parseAmazonPrices pg.dom

/-- Outcome of one proxy-API request: either the request raised inside the
per-attempt try block, or a response with status, body, and parsed tree. -/
inductive ApiResponse where
  | exn : ApiResponse
  | ok : Nat → String → Dom → ApiResponse

/-- The retry loop of _scrape_amazon_api, indexed by attempt number with a
fuel equal to the remaining attempt budget.  Per attempt: take the next key
from the pool; on status 403 or 429 mark that key failed and continue; on any
other non-200 status continue; on a raised request continue; on a 200 body
with the captcha marker return the CAPTCHA pair; otherwise parse and return.
When the budget runs out return the Error pair. -/
def apiAttemptLoop (resp : Nat → ApiResponse) : ScraperState → Nat → Nat → ScraperState × String × String
  | s, _, 0 => (s, "Error", "Error")
  | s, attempt, fuel + 1 =>
    match getNextApiKey s with
    | (s2, none) => (s2, "No API Key", "No API Key")
    | (s2, some (_key, keyId)) =>
      match resp attempt with
      | .exn => apiAttemptLoop resp s2 (attempt + 1) fuel
      | .ok status html dom =>
        if status = 403 ∨ status = 429 then
          apiAttemptLoop resp (markKeyFailed s2 keyId) (attempt + 1) fuel
        else if status ≠ 200 then
          apiAttemptLoop resp s2 (attempt + 1) fuel
        else if lowerHas html "captcha" then (s2, "CAPTCHA", "CAPTCHA")
        else (s2, parseAmazonPrices dom)

/-- Models _scrape_amazon_api: with no keys loaded return the No API Key
pair, otherwise run the retry loop with max_retries = min(3, number of keys). -/
def scrapeAmazonApi (s : ScraperState) (resp : Nat → ApiResponse) : ScraperState × String × String :=
  if s.apiKeys.isEmpty then (s, "No API Key", "No API Key")
  else apiAttemptLoop resp s 0 (min 3 s.apiKeys.length)

/-- Result of the Amazon cascade: the pool state after the run, the two price
fields, and the method tag (A, B, C, or X). -/
structure AmazonResult where
  state : ScraperState
  mrp : String
  selling : String
  method : String
deriving DecidableEq

/-- Models _scrape_amazon: try the direct request, then Playwright, then the
proxy API, gate each attempt with _is_valid_price, and stop at the first
usable pair; when all three fail, return the pair of the last attempt with
the method tag X. -/
def scrapeAmazon (s : ScraperState) (direct : Option Page) (pw : Option RenderedPage)
    (api : Nat → ApiResponse) : AmazonResult :=
  if isValidPrice (scrapeAmazonDirect direct).1 (scrapeAmazonDirect direct).2 then
    ⟨s, (scrapeAmazonDirect direct).1, (scrapeAmazonDirect direct).2, "A"⟩
  else if isValidPrice (scrapeAmazonPlaywright pw).1 (scrapeAmazonPlaywright pw).2 then
    ⟨s, (scrapeAmazonPlaywright pw).1, (scrapeAmazonPlaywright pw).2, "B"⟩
  else if isValidPrice (scrapeAmazonApi s api).2.1 (scrapeAmazonApi s api).2.2 then
    ⟨(scrapeAmazonApi s api).1, (scrapeAmazonApi s api).2.1, (scrapeAmazonApi s api).2.2, "C"⟩
  else
    ⟨(scrapeAmazonApi s api).1, (scrapeAmazonApi s api).2.1, (scrapeAmazonApi s api).2.2, "X"⟩

/- ## Site-B (eBazaar) extraction -/

/-- Exact decimal value num / 10 ^ exp.  It stands for the JavaScript number
that parseFloat yields on a plain decimal string; on such inputs the
comparisons and the two-digit formatting below agree with the float result. -/
structure DecVal where
  num : Nat
  exp : Nat
deriving DecidableEq

/-- Order test on exact decimals. -/
def decLe (a b : DecVal) : Bool :=
  a.num * 10 ^ b.exp ≤ b.num * 10 ^ a.exp

/-- Minimum of two exact decimals. -/
def decMin (a b : DecVal) : DecVal :=
  if decLe a b then a else b

/-- Maximum of two exact decimals. -/
def decMax (a b : DecVal) : DecVal :=
  if decLe a b then b else a

/-- Left fold of decMin, models Math.min over a token list. -/
def decMinList : DecVal → List DecVal → DecVal
  | acc, [] => acc
  | acc, x :: xs => decMinList (decMin acc x) xs

/-- Left fold of decMax, models Math.max over a token list. -/
def decMaxList : DecVal → List DecVal → DecVal
  | acc, [] => acc
  | acc, x :: xs => decMaxList (decMax acc x) xs

/-- Numeric value of a digit list. -/
def digitsToNat (l : List Char) : Nat :=
  l.foldl (fun acc c => acc * 10 + (c.toNat - 48)) 0

/-- Models parseFloat on a plain decimal character list (digits, an optional
dot, digits). -/
def parseDec (l : List Char) : DecVal :=
  match l.span (fun c => c ≠ '.') with
  | (ip, []) => ⟨digitsToNat ip, 0⟩
  | (ip, _ :: fp) => ⟨digitsToNat ip * 10 ^ fp.length + digitsToNat fp, fp.length⟩

/-- Models Number.prototype.toFixed(2) on an exact decimal: round half up to
cents and print with two fraction digits. -/
def toFixed2 (v : DecVal) : String :=
  let c := (2 * v.num * 100 + 10 ^ v.exp) / (2 * 10 ^ v.exp)
  toString (c / 100) ++ "." ++ (if c % 100 < 10 then "0" else "") ++ toString (c % 100)

/-- Digits-or-comma run after the currency sign, the [\d,]+ part of the
in-page regex. -/
def takeDigitsCommas (l : List Char) : List Char :=
  l.takeWhile (fun c => c.isDigit || c = ',')

/-- Fueled scanner for the global regex over dollar amounts used by the
eBazaar page script: a dollar sign, one or more digits or commas, an optional
dot, then any digits; matches are leftmost and non-overlapping.  The fuel is
the length of the scanned text, which is always enough since every step
consumes at least one character. -/
def scanPricesAux : Nat → List Char → List String
  | 0, _ => []
  | _, [] => []
  | fuel + 1, c :: rest =>
    if c = '$' then
      let digs := takeDigitsCommas rest
      if digs.isEmpty then scanPricesAux fuel rest
      else
        let rest2 := rest.drop digs.length
        match rest2 with
        | '.' :: rest3 =>
          let frac := rest3.takeWhile Char.isDigit
          ("$" ++ String.mk digs ++ "." ++ String.mk frac) ::
            scanPricesAux fuel (rest3.drop frac.length)
        | _ => ("$" ++ String.mk digs) :: scanPricesAux fuel rest2
    else scanPricesAux fuel rest

/-- All dollar-amount tokens of a container text, in order. -/
def jsMatchPrices (s : String) : List String :=
  scanPricesAux s.toList.length s.toList

/-- Characters removed by the replace over [$,] before parseFloat. -/
def stripMoneyChars (s : String) : List Char :=
  s.toList.filter (fun c => c ≠ '$' ∧ c ≠ ',')

/-- The page data read by the eBazaar in-page script: the data-price-amount
attribute of the finalPrice element (none when that element is absent; the
case of a present element whose attribute is null behaves the same as an empty
string and is folded into it), the same for the oldPrice element, and the
innerText of each price container matched by the fallback query, in document
order. -/
structure EbazaarDom where
  finalPrice : Option String
  oldPrice : Option String
  containers : List String
deriving DecidableEq

/-- The fallback container loop of the eBazaar in-page script, carrying the
current mrp and sellingPrice: the first container with at least two tokens
fills whichever of the two is still empty with the formatted minimum and
maximum and stops; a container with exactly one token fills an empty
sellingPrice with the raw token and keeps scanning. -/
def ebazaarFallback : List String → String → String → String × String
  | [], mrp, selling => (mrp, selling)
  | c :: rest, mrp, selling =>
    let prices := jsMatchPrices c
    if prices.length ≥ 2 then
      let nums := prices.map (fun p => parseDec (stripMoneyChars p))
      let mn := decMinList (nums.headD ⟨0, 0⟩) nums.tail
      let mx := decMaxList (nums.headD ⟨0, 0⟩) nums.tail
      (if mrp = "" then "$" ++ toFixed2 mx else mrp,
        if selling = "" then "$" ++ toFixed2 mn else selling)
    else if prices.length = 1 ∧ selling = "" then
      ebazaarFallback rest mrp (prices.headD "")
    else ebazaarFallback rest mrp selling

/-- The eBazaar in-page script before its final default fill: read the two
structured data-price-amount markers, and run the container fallback when
either of the two fields is still empty.  Returns (mrp, sellingPrice). -/
def ebazaarRaw (d : EbazaarDom) : String × String :=
  let selling0 :=
    match d.finalPrice with
    | some amount => if amount ≠ "" then "$" ++ toFixed2 (parseDec amount.toList) else ""
    | none => ""
  let mrp0 :=
    match d.oldPrice with
    | some amount => if amount ≠ "" then "$" ++ toFixed2 (parseDec amount.toList) else ""
    | none => ""
  if selling0 = "" ∨ mrp0 = "" then ebazaarFallback d.containers mrp0 selling0
  else (mrp0, selling0)

/-- The complete eBazaar in-page script: after the marker reads and the
fallback, an empty mrp defaults to a non-empty sellingPrice. -/
def ebazaarEvaluate (d : EbazaarDom) : String × String :=
  let r := ebazaarRaw d
  if r.1 = "" ∧ r.2 ≠ "" then (r.2, r.2) else r

/-- Models the Python postlude of _scrape_ebazaar on each returned field:
strip, then substitute N/A for an empty value. -/
def orNA (s : String) : String :=
  if pyStrip s = "" then "N/A" else pyStrip s

/-- Models _scrape_ebazaar as a function of the navigation outcome: a raised
navigation or evaluation yields the Error pair, otherwise the in-page script
result with the Python postlude.  Returns (mrp, selling). -/
def scrapeEbazaar (resp : Option EbazaarDom) : String × String :=
  match resp with
  | none => ("Error", "Error")
  | some d => (orNA (ebazaarEvaluate d).1, orNA (ebazaarEvaluate d).2)

/- ## The run loop -/

/-- One input row: the product name and the two optional links (none models a
missing or NaN cell). -/
structure TargetRow where
  modelName : String
  amazonLink : Option String
  ebazaarLink : Option String

/-- The fetch outcomes the outside world produces while one row is
processed. -/
structure TargetOutcomes where
  direct : Option Page
  pw : Option RenderedPage
  api : Nat → ApiResponse
  ebazaar : Option EbazaarDom

/-- The output record ProductComparison of the source, with its default empty
strings. -/
structure ProductComparison where
  modelName : String
  amazonMethod : String
  amazonMrp : String
  amazonSellingPrice : String
  ebazaarMrp : String
  ebazaarSellingPrice : String
  amazonLink : String
  ebazaarLink : String
deriving DecidableEq

/-- Models the link guard of run: pd.notna(link) and str(link).strip(). -/
def linkPresent : Option String → Bool
  | some s => pyStrip s ≠ ""
  | none => false

/-- The freshly constructed ProductComparison for one row. -/
def emptyProduct (row : TargetRow) : ProductComparison :=
  ⟨row.modelName, "", "", "", "", "", row.amazonLink.getD "", row.ebazaarLink.getD ""⟩

/-- Models the body of the per-row loop of run: scrape Amazon when the Amazon
link is present, then eBazaar when its link is present, and fill the record. -/
def runRow (s : ScraperState) (row : TargetRow) (oc : TargetOutcomes) :
    ScraperState × ProductComparison :=
  let p0 := emptyProduct row
  let withA :=
    if linkPresent row.amazonLink then
      ((scrapeAmazon s oc.direct oc.pw oc.api).state,
        { p0 with
          amazonMrp := (scrapeAmazon s oc.direct oc.pw oc.api).mrp
          amazonSellingPrice := (scrapeAmazon s oc.direct oc.pw oc.api).selling
          amazonMethod := (scrapeAmazon s oc.direct oc.pw oc.api).method })
    else (s, p0)
  if linkPresent row.ebazaarLink then
    (withA.1,
      { withA.2 with
        ebazaarMrp := (scrapeEbazaar oc.ebazaar).1
        ebazaarSellingPrice := (scrapeEbazaar oc.ebazaar).2 })
  else withA

/-- Models the row loop of run: process the rows in order, threading the pool
state, and append one record per row. -/
def runScraper (s : ScraperState) : List (TargetRow × TargetOutcomes) → ScraperState × List ProductComparison
  | [] => (s, [])
  | (row, oc) :: rest =>
    ((runScraper (runRow s row oc).1 rest).1,
      (runRow s row oc).2 :: (runScraper (runRow s row oc).1 rest).2)

/- ## Spec-side rule-selection definitions

The next four definitions follow the wording of the specification (first rule
whose match is non-empty, currency-marked text wins; a selling-price candidate
inside a strikethrough or old-price region is never accepted).  They exist to
be compared against the selector loops embedded from the source. -/

/-- Spec wording for one selling-price rule: the value it contributes, namely
its first match when that match has non-empty currency text and lies in no
strikethrough or old-price region, and nothing otherwise. -/
def sellingRuleMatch (dom : Dom) (sel : Sel) : Option String :=
  match selectOne sel dom with
  | some (el, anc) =>
    if getTextD el ≠ "" ∧ hasCurrency (getTextD el) = true ∧
        strikeAnc anc = false ∧ textPriceAnc anc = false then
      some (getTextD el)
    else none
  | none => none

/-- Spec wording for the selling-price list: the first rule in order that
contributes a value wins. -/
def firstSellingMatch (dom : Dom) (sels : List Sel) : Option String :=
  sels.findSome? (sellingRuleMatch dom)

/-- Spec wording for one reference-price rule: the value it contributes,
namely its first match when that match has non-empty currency text. -/
def mrpRuleMatch (dom : Dom) (sel : Sel) : Option String :=
  match selectOne sel dom with
  | some (el, _) =>
    if getTextD el ≠ "" ∧ hasCurrency (getTextD el) = true then some (getTextD el)
    else none
  | none => none

/-- Spec wording for the reference-price list: the first rule in order that
contributes a value wins. -/
def firstMrpMatch (dom : Dom) (sels : List Sel) : Option String :=
  sels.findSome? (mrpRuleMatch dom)

/- ## Concrete fixtures used by counterexamples and witnesses -/

/-- Element-tree construction shorthand. -/
def mkEl (tag id : String) (classes : List String) (attrs : List (String × String))
    (text : String) (children : List Dom) : Dom :=
  .node ⟨tag, id, classes, attrs, text⟩ children

/-- A page with no price markup at all. -/
def emptyDom : Dom := mkEl "html" "" [] [] "" []

/-- A page whose only price is a regular selling price:
div, then span class a-price, then span class a-offscreen with text 899.00
dollars and no strikethrough marker anywhere. -/
def domGood : Dom :=
  mkEl "div" "" [] [] ""
    [mkEl "span" "" ["a-price"] [] "" [mkEl "span" "" ["a-offscreen"] [] "$899.00" []]]

/-- A page whose only price sits in an old-price region:
div, then span class a-text-price, then span class a-offscreen with text 100
dollars.  The selling-price rules find nothing here, while the first
reference-price rule matches. -/
def domMrpOnly : Dom :=
  mkEl "div" "" [] [] ""
    [mkEl "span" "" ["a-text-price"] [] "" [mkEl "span" "" ["a-offscreen"] [] "$100" []]]

/-- The Amazon cascade run against pages that parse to an MRP with no selling
price: all three strategies fetch the same markup, so every validity gate
fails and the cascade falls through to the Failed tag. -/
def c2Result : AmazonResult :=
  scrapeAmazon ⟨["key1"], 0, ∅⟩ (some ⟨200, "page", domMrpOnly⟩) (some ⟨"page", domMrpOnly⟩)
    (fun _ => .ok 200 "page" domMrpOnly)

/-- Outcomes in which every strategy of a row fails: both fetches raise and
every proxy attempt raises. -/
def allFailOutcomes : TargetOutcomes := ⟨none, none, fun _ => .exn, none⟩

/-- Container text holding two dollar amounts, for the site-B fallback. -/
def c8container : String := "Special Price $450.00 Regular Price $600.00"

/- ## General lemmas about the credential pool -/

/-- When every id of the pool is marked failed, the bounded scan loop finds
nothing, whatever its fuel and start index. -/
theorem keyScan_all_failed (keys : List String) (failed : Finset Nat) :
    ∀ fuel idx : Nat, idx < keys.length →
      (∀ i ∈ Finset.Icc 1 keys.length, i ∈ failed) →
      keyScan keys failed idx fuel = none := by
  intro fuel
  induction fuel with
  | zero => intro idx _ _; rfl
  | succ n ih =>
    intro idx hidx hall
    have hmem : idx + 1 ∈ failed := by
      apply hall
      rw [Finset.mem_Icc]
      omega
    simp only [keyScan, hmem, if_pos]
    exact ih ((idx + 1) % keys.length) (Nat.mod_lt _ (by omega)) hall

/-- When every id of the pool is marked failed, _get_next_api_key clears the
failed set, moves the cursor past the first key, and hands back the first key
with id 1. -/
theorem getNextApiKey_reset (s : ScraperState) (h1 : s.apiKeys ≠ [])
    (h2 : s.currentKeyIndex < s.apiKeys.length)
    (h3 : ∀ i ∈ Finset.Icc 1 s.apiKeys.length, i ∈ s.failedKeys) :
    getNextApiKey s =
      ({ s with failedKeys := ∅, currentKeyIndex := 1 % s.apiKeys.length },
        some (s.apiKeys.getD 0 "", 1)) := by
  have hempty : s.apiKeys.isEmpty = false := by
    simpa [List.isEmpty_iff] using h1
  have hscan := keyScan_all_failed s.apiKeys s.failedKeys s.apiKeys.length s.currentKeyIndex h2 h3
  simp only [getNextApiKey, hempty, Bool.false_eq_true, if_false, hscan]

/-- The rotation never touches the key list itself. -/
theorem getNextApiKey_preserves_apiKeys (s : ScraperState) :
    (getNextApiKey s).1.apiKeys = s.apiKeys := by
  unfold getNextApiKey
  split
  · rfl
  · split <;> rfl

/-- With a non-empty key list, _get_next_api_key always hands back a key. -/
theorem getNextApiKey_some_of_ne (s : ScraperState) (h : s.apiKeys ≠ []) :
    ∃ s2 k i, getNextApiKey s = (s2, some (k, i)) := by
  have hempty : s.apiKeys.isEmpty = false := by
    simpa [List.isEmpty_iff] using h
  unfold getNextApiKey
  rw [hempty]
  cases hscan : keyScan s.apiKeys s.failedKeys s.currentKeyIndex s.apiKeys.length with
  | none =>
    exact ⟨{ s with failedKeys := ∅, currentKeyIndex := 1 % s.apiKeys.length },
      s.apiKeys.getD 0 "", 1, rfl⟩
  | some v =>
    obtain ⟨k, kid, idx2⟩ := v
    exact ⟨{ s with currentKeyIndex := idx2 }, k, kid, rfl⟩

/-- The rotation yields no key exactly when no keys are loaded. -/
theorem getNextApiKey_none_iff (s : ScraperState) :
    (getNextApiKey s).2 = none ↔ s.apiKeys = [] := by
  by_cases h : s.apiKeys = []
  · simp [getNextApiKey, h]
  · obtain ⟨s2, k, i, heq⟩ := getNextApiKey_some_of_ne s h
    simp [heq, h]

/- ## General lemmas about the proxy-API retry loop -/

/-- With a non-empty pool, a run of the retry loop in which every request
raises ends with the Error pair once the budget is gone. -/
theorem apiAttemptLoop_exn (fuel : Nat) :
    ∀ (s : ScraperState) (attempt : Nat), s.apiKeys ≠ [] →
      ∃ s3, apiAttemptLoop (fun _ => ApiResponse.exn) s attempt fuel = (s3, "Error", "Error") := by
  induction fuel with
  | zero => intro s attempt _; exact ⟨s, rfl⟩
  | succ n ih =>
    intro s attempt h
    obtain ⟨s2, k, i, hnext⟩ := getNextApiKey_some_of_ne s h
    have hkeys : s2.apiKeys = s.apiKeys := by
      have hp := getNextApiKey_preserves_apiKeys s
      rw [hnext] at hp
      exact hp
    obtain ⟨s3, h3⟩ := ih s2 (attempt + 1) (by rw [hkeys]; exact h)
    refine ⟨s3, ?_⟩
    simp only [apiAttemptLoop, hnext]
    exact h3

/-- When every proxy request raises, _scrape_amazon_api returns a pair that
fails the validity gate: No API Key with an empty pool, Error otherwise. -/
theorem scrapeAmazonApi_exn_invalid (s : ScraperState) :
    ∃ s3 m sp, scrapeAmazonApi s (fun _ => ApiResponse.exn) = (s3, m, sp) ∧
      isValidPrice m sp = false := by
  by_cases h : s.apiKeys = []
  · refine ⟨s, "No API Key", "No API Key", ?_, by decide⟩
    simp [scrapeAmazonApi, h]
  · have hempty : s.apiKeys.isEmpty = false := by
      simpa [List.isEmpty_iff] using h
    obtain ⟨s3, h3⟩ := apiAttemptLoop_exn (min 3 s.apiKeys.length) s 0 h
    refine ⟨s3, "Error", "Error", ?_, by decide⟩
    simp [scrapeAmazonApi, hempty, h3]

/-- When both free strategies fail outright and every proxy request raises,
the cascade ends with the Failed tag and a pair rejected by the validity
gate. -/
theorem scrapeAmazon_allfail (s : ScraperState) :
    (scrapeAmazon s none none (fun _ => ApiResponse.exn)).method = "X" ∧
      isValidPrice (scrapeAmazon s none none (fun _ => ApiResponse.exn)).mrp
        (scrapeAmazon s none none (fun _ => ApiResponse.exn)).selling = false := by
  obtain ⟨s3, m, sp, heq, hinv⟩ := scrapeAmazonApi_exn_invalid s
  have hd : isValidPrice (scrapeAmazonDirect none).1 (scrapeAmazonDirect none).2 = false := by
    decide
  have hp : isValidPrice (scrapeAmazonPlaywright none).1 (scrapeAmazonPlaywright none).2 = false := by
    decide
  unfold scrapeAmazon
  rw [hd, hp, heq]
  simp [hinv]

/- ## General lemmas about the selector loops -/

/-- The selling-price loop embedded from the source computes exactly the
first-qualifying-rule value described by the specification. -/
theorem sellingScan_eq_firstMatch (dom : Dom) :
    ∀ sels : List Sel, sellingScan dom sels = (firstSellingMatch dom sels).getD "N/A" := by
  intro sels
  induction sels with
  | nil => rfl
  | cons sel rest ih =>
    rw [firstSellingMatch, List.findSome?_cons]
    cases hsel : selectOne sel dom with
    | none =>
      simp only [sellingScan, sellingRuleMatch, hsel]
      exact ih
    | some p =>
      obtain ⟨el, anc⟩ := p
      simp only [sellingScan, sellingRuleMatch, hsel]
      by_cases h1 : getTextD el ≠ "" ∧ hasCurrency (getTextD el) = true
      · by_cases h2 : strikeAnc anc = true
        · have hq : ¬(getTextD el ≠ "" ∧ hasCurrency (getTextD el) = true ∧
              strikeAnc anc = false ∧ textPriceAnc anc = false) := by
            rintro ⟨-, -, hs, -⟩
            rw [h2] at hs
            cases hs
          rw [if_pos h1, if_pos h2, if_neg hq]
          exact ih
        · by_cases h3 : textPriceAnc anc = true
          · have hq : ¬(getTextD el ≠ "" ∧ hasCurrency (getTextD el) = true ∧
                strikeAnc anc = false ∧ textPriceAnc anc = false) := by
              rintro ⟨-, -, -, ht⟩
              rw [h3] at ht
              cases ht
            rw [if_pos h1, if_neg h2, if_pos h3, if_neg hq]
            exact ih
          · have hq : getTextD el ≠ "" ∧ hasCurrency (getTextD el) = true ∧
                strikeAnc anc = false ∧ textPriceAnc anc = false :=
              ⟨h1.1, h1.2, Bool.not_eq_true _ ▸ h2, Bool.not_eq_true _ ▸ h3⟩
            rw [if_pos h1, if_neg h2, if_neg h3, if_pos hq]
            rfl
      · have hq : ¬(getTextD el ≠ "" ∧ hasCurrency (getTextD el) = true ∧
            strikeAnc anc = false ∧ textPriceAnc anc = false) := by
          rintro ⟨ha, hb, -, -⟩
          exact h1 ⟨ha, hb⟩
        rw [if_neg h1, if_neg hq]
        exact ih

/-- The reference-price loop embedded from the source computes exactly the
first-qualifying-rule value described by the specification. -/
theorem mrpScan_eq_firstMatch (dom : Dom) :
    ∀ sels : List Sel, mrpScan dom sels = (firstMrpMatch dom sels).getD "N/A" := by
  intro sels
  induction sels with
  | nil => rfl
  | cons sel rest ih =>
    rw [firstMrpMatch, List.findSome?_cons]
    cases hsel : selectOne sel dom with
    | none =>
      simp only [mrpScan, mrpRuleMatch, hsel]
      exact ih
    | some p =>
      obtain ⟨el, anc⟩ := p
      simp only [mrpScan, mrpRuleMatch, hsel]
      by_cases h1 : getTextD el ≠ "" ∧ hasCurrency (getTextD el) = true
      · rw [if_pos h1, if_pos h1]
        rfl
      · rw [if_neg h1, if_neg h1]
        exact ih

/- ## General lemmas about the run loop and strings -/

/-- Processing one row never changes the product name of its record. -/
theorem runRow_modelName (s : ScraperState) (row : TargetRow) (oc : TargetOutcomes) :
    (runRow s row oc).2.modelName = row.modelName := by
  unfold runRow
  cases hA : linkPresent row.amazonLink <;> cases hE : linkPresent row.ebazaarLink <;>
    simp only [hA, hE, Bool.false_eq_true, eq_self_iff_true, ite_true, ite_false,
      emptyProduct]

/-- A string beginning with the dollar sign is never empty. -/
theorem dollar_append_ne_empty (s : String) : ("$" ++ s : String) ≠ "" := by
  intro h
  have hlen := congrArg String.length h
  rw [String.length_append] at hlen
  have h1 : ("$" : String).length = 1 := rfl
  have h0 : ("" : String).length = 0 := rfl
  omega

/- ## Claims -/

/-- C1 counterexample: with the two-key pool and both ids marked failed, the
next rotation does not report exhaustion; it hands back the first key and
clears the failure marks.  This contradicts the claim that the pool then
always returns Exhausted and never clears the marks. -/
theorem pool_all_marked_returns_credential :
    (getNextApiKey ⟨["key1", "key2"], 0, {1, 2}⟩).2 = some ("key1", 1) ∧
      (getNextApiKey ⟨["key1", "key2"], 0, {1, 2}⟩).1.failedKeys = ∅ := by
  decide

/-- C1 (amended): the pool keeps one combined failure set; once every
credential is marked failed, the next call of _get_next_api_key clears that
set, moves the cursor past the first key, and hands back the first
credential; no credential is returned only when the pool is empty. -/
theorem pool_all_marked_resets_and_cycles (s : ScraperState) (h1 : s.apiKeys ≠ [])
    (h2 : s.currentKeyIndex < s.apiKeys.length)
    (h3 : ∀ i ∈ Finset.Icc 1 s.apiKeys.length, i ∈ s.failedKeys) :
    getNextApiKey s =
      ({ s with failedKeys := ∅, currentKeyIndex := 1 % s.apiKeys.length },
        some (s.apiKeys.getD 0 "", 1)) :=
  getNextApiKey_reset s h1 h2 h3

/-- C1 (amended) witness: a one-key pool with its only id marked failed. -/
theorem pool_all_marked_resets_and_cycles_witness :
    (["keyA"] : List String) ≠ [] ∧
      getNextApiKey ⟨["keyA"], 0, {1}⟩ = (⟨["keyA"], 1 % 1, ∅⟩, some ("keyA", 1)) :=
  ⟨by decide,
    pool_all_marked_resets_and_cycles ⟨["keyA"], 0, {1}⟩ (by decide) (by decide) (by decide)⟩

/-- C5: when a full rotation finds no eligible credential because every id is
in the failure set, which only quota marking ever fills (_mark_key_failed is
called solely on the 403 and 429 quota statuses), the pool performs exactly
one reset: the failure set comes back empty, the key list is untouched, and
the first credential is returned, so the pool never deadlocks on quota
exhaustion. -/
theorem pool_quota_exhaustion_reset (s : ScraperState) (h1 : s.apiKeys ≠ [])
    (h2 : s.currentKeyIndex < s.apiKeys.length)
    (h3 : ∀ i ∈ Finset.Icc 1 s.apiKeys.length, i ∈ s.failedKeys) :
    (getNextApiKey s).1.failedKeys = ∅ ∧
      (getNextApiKey s).1.apiKeys = s.apiKeys ∧
      (getNextApiKey s).2 = some (s.apiKeys.getD 0 "", 1) := by
  rw [getNextApiKey_reset s h1 h2 h3]
  exact ⟨rfl, rfl, rfl⟩

/-- C5 witness: a three-key pool with every id marked quota-failed. -/
theorem pool_quota_exhaustion_reset_witness :
    (["key1", "key2", "key3"] : List String) ≠ [] ∧
      (getNextApiKey ⟨["key1", "key2", "key3"], 1, {1, 2, 3}⟩).1.failedKeys = ∅ ∧
      (getNextApiKey ⟨["key1", "key2", "key3"], 1, {1, 2, 3}⟩).1.apiKeys = ["key1", "key2", "key3"] ∧
      (getNextApiKey ⟨["key1", "key2", "key3"], 1, {1, 2, 3}⟩).2 =
        some ((["key1", "key2", "key3"] : List String).getD 0 "", 1) :=
  ⟨by decide,
    pool_quota_exhaustion_reset ⟨["key1", "key2", "key3"], 1, {1, 2, 3}⟩
      (by decide) (by decide) (by decide)⟩

/-- C10: the bounded rotation always terminates with a result, and that
result is no-key exactly when the key list is empty; the scan inside is the
source loop, whose attempt counter is bounded by the key count (the fuel of
keyScan is the list length). -/
theorem next_key_total_none_iff_empty (s : ScraperState) :
    (getNextApiKey s).2 = none ↔ s.apiKeys = [] :=
  getNextApiKey_none_iff s

/-- C2 counterexample: pages whose markup holds only an old-price region
parse to the pair (100 dollars, N/A); the cascade then fails every validity
gate and returns the Failed tag X while its reference-price field is a
currency string, not a sentinel.  This contradicts both directions of the
claimed invariant. -/
theorem method_failed_with_currency_mrp :
    c2Result.method = "X" ∧ c2Result.mrp = "$100" ∧ hasCurrency c2Result.mrp = true ∧
      c2Result.selling = "N/A" := by
  decide

/-- C2 (amended): if the method tag is X then the returned pair fails the
validity predicate, meaning at least one of the two price fields is a
sentinel (but not necessarily both); conversely, whenever the returned pair
passes the validity predicate, so in particular whenever both fields are
currency strings, the method tag is A, B, or C. -/
theorem amazon_failed_tag_iff_invalid (s : ScraperState) (direct : Option Page)
    (pw : Option RenderedPage) (api : Nat → ApiResponse) :
    ((scrapeAmazon s direct pw api).method = "X" →
      isValidPrice (scrapeAmazon s direct pw api).mrp (scrapeAmazon s direct pw api).selling = false) ∧
      (isValidPrice (scrapeAmazon s direct pw api).mrp (scrapeAmazon s direct pw api).selling = true →
        (scrapeAmazon s direct pw api).method = "A" ∨ (scrapeAmazon s direct pw api).method = "B" ∨
          (scrapeAmazon s direct pw api).method = "C") := by
  unfold scrapeAmazon
  split_ifs with hA hB hC
  · refine ⟨fun hx => ?_, fun _ => Or.inl rfl⟩
    simp at hx
  · refine ⟨fun hx => ?_, fun _ => Or.inr (Or.inl rfl)⟩
    simp at hx
  · refine ⟨fun hx => ?_, fun _ => Or.inr (Or.inr rfl)⟩
    simp at hx
  · refine ⟨fun _ => ?_, fun hv => absurd hv hC⟩
    exact Bool.not_eq_true _ ▸ hC

/-- C2 (amended) witness: the mixed pair of the counterexample pages is
rejected by the validity predicate although its method tag is X. -/
theorem amazon_failed_tag_iff_invalid_witness :
    c2Result.method = "X" ∧ isValidPrice c2Result.mrp c2Result.selling = false :=
  ⟨by decide,
    (amazon_failed_tag_iff_invalid ⟨["key1"], 0, ∅⟩ (some ⟨200, "page", domMrpOnly⟩)
      (some ⟨"page", domMrpOnly⟩) (fun _ => .ok 200 "page" domMrpOnly)).1 (by decide)⟩

/-- C3 counterexample: a one-key pool whose single proxy attempt answers
HTTP 401.  The strategy neither marks the credential (the failure set stays
empty) nor spares the bounded budget: the lone attempt is consumed and the
loop ends with the Error pair.  This contradicts the claimed 401 handling
(mark auth-invalid, advance without consuming the bounded-retry budget). -/
theorem api_401_consumes_budget_without_marking :
    scrapeAmazonApi ⟨["key1"], 0, ∅⟩ (fun _ => .ok 401 "page" emptyDom) =
      (⟨["key1"], 0, ∅⟩, "Error", "Error") := by
  decide

/-- C3 (amended): the proxy strategy inspects the status before the body, but
with a coarser policy than claimed: only the statuses 403 and 429 mark the
current credential failed before advancing; every other non-200 status, 401
and the whole 5xx range alike, advances to the next credential while
consuming one unit of the bounded attempt budget, with no marking, no
same-credential retry, and no backoff. -/
theorem api_status_classification (s s2 : ScraperState) (resp : Nat → ApiResponse)
    (attempt fuel : Nat) (key : String) (keyId status : Nat) (html : String) (dom : Dom)
    (hnext : getNextApiKey s = (s2, some (key, keyId)))
    (hresp : resp attempt = .ok status html dom) :
    (status = 403 ∨ status = 429 →
      apiAttemptLoop resp s attempt (fuel + 1) =
        apiAttemptLoop resp (markKeyFailed s2 keyId) (attempt + 1) fuel) ∧
      (status ≠ 200 → status ≠ 403 → status ≠ 429 →
        apiAttemptLoop resp s attempt (fuel + 1) = apiAttemptLoop resp s2 (attempt + 1) fuel) := by
  constructor
  · intro h
    simp only [apiAttemptLoop, hnext, hresp]
    rw [if_pos h]
  · intro h200 h403 h429
    simp only [apiAttemptLoop, hnext, hresp]
    rw [if_neg (fun hor => hor.elim h403 h429), if_pos h200]

/-- C3 (amended) witness: with a two-key pool, a 502 answer on the first
attempt moves the loop to the advanced pool state and the smaller budget,
with nothing marked. -/
theorem api_status_classification_witness :
    getNextApiKey ⟨["key1", "key2"], 0, ∅⟩ = (⟨["key1", "key2"], 1, ∅⟩, some ("key1", 1)) ∧
      (502 ≠ 200 ∧ 502 ≠ 403 ∧ 502 ≠ 429) ∧
      apiAttemptLoop (fun _ => ApiResponse.ok 502 "page" emptyDom) ⟨["key1", "key2"], 0, ∅⟩ 0 1 =
        apiAttemptLoop (fun _ => ApiResponse.ok 502 "page" emptyDom) ⟨["key1", "key2"], 1, ∅⟩ 1 0 :=
  ⟨by decide, by decide,
    (api_status_classification ⟨["key1", "key2"], 0, ∅⟩ ⟨["key1", "key2"], 1, ∅⟩
      (fun _ => ApiResponse.ok 502 "page" emptyDom) 0 0 "key1" 1 502 "page" emptyDom
      (by decide) rfl).2 (by decide) (by decide) (by decide)⟩

/-- C4: the cascade tries DirectRequest, then the rendered browser, then the
proxy API, gating each attempt with the same predicate _is_valid_price; when
the direct pair is valid the result carries tag A, leaves the pool state
untouched, and is independent of the later strategies; when only the browser
pair is valid the result carries tag B and is independent of the proxy
strategy; only when both free strategies fail is the proxy strategy consulted. -/
theorem amazon_cascade_order_short_circuit (s : ScraperState) (direct : Option Page)
    (pw pw2 : Option RenderedPage) (api api2 : Nat → ApiResponse) :
    (isValidPrice (scrapeAmazonDirect direct).1 (scrapeAmazonDirect direct).2 = true →
      scrapeAmazon s direct pw api =
        ⟨s, (scrapeAmazonDirect direct).1, (scrapeAmazonDirect direct).2, "A"⟩ ∧
      scrapeAmazon s direct pw api = scrapeAmazon s direct pw2 api2) ∧
      (isValidPrice (scrapeAmazonDirect direct).1 (scrapeAmazonDirect direct).2 = false →
        isValidPrice (scrapeAmazonPlaywright pw).1 (scrapeAmazonPlaywright pw).2 = true →
        scrapeAmazon s direct pw api =
          ⟨s, (scrapeAmazonPlaywright pw).1, (scrapeAmazonPlaywright pw).2, "B"⟩ ∧
        scrapeAmazon s direct pw api = scrapeAmazon s direct pw api2) ∧
      (isValidPrice (scrapeAmazonDirect direct).1 (scrapeAmazonDirect direct).2 = false →
        isValidPrice (scrapeAmazonPlaywright pw).1 (scrapeAmazonPlaywright pw).2 = false →
        scrapeAmazon s direct pw api =
          ⟨(scrapeAmazonApi s api).1, (scrapeAmazonApi s api).2.1, (scrapeAmazonApi s api).2.2,
            if isValidPrice (scrapeAmazonApi s api).2.1 (scrapeAmazonApi s api).2.2 then "C"
            else "X"⟩) := by
  refine ⟨fun hA => ⟨?_, ?_⟩, fun hA hB => ⟨?_, ?_⟩, fun hA hB => ?_⟩
  · simp [scrapeAmazon, hA]
  · simp [scrapeAmazon, hA]
  · simp [scrapeAmazon, hA, hB]
  · simp [scrapeAmazon, hA, hB]
  · by_cases hC : isValidPrice (scrapeAmazonApi s api).2.1 (scrapeAmazonApi s api).2.2 <;>
      simp [scrapeAmazon, hA, hB, hC]

/-- C4 witness: a direct request that parses to a valid pair short-circuits
the cascade with tag A, an unchanged pool, and no dependence on the other
strategies. -/
theorem amazon_cascade_order_short_circuit_witness :
    isValidPrice (scrapeAmazonDirect (some ⟨200, "page", domGood⟩)).1
        (scrapeAmazonDirect (some ⟨200, "page", domGood⟩)).2 = true ∧
      scrapeAmazon ⟨["key1"], 0, ∅⟩ (some ⟨200, "page", domGood⟩) none (fun _ => .exn) =
        ⟨⟨["key1"], 0, ∅⟩, "$899.00", "$899.00", "A"⟩ :=
  ⟨by decide, by
    have h := (amazon_cascade_order_short_circuit ⟨["key1"], 0, ∅⟩ (some ⟨200, "page", domGood⟩)
      none none (fun _ => .exn) (fun _ => .exn)).1 (by decide)
    exact h.1.trans (by decide)⟩

/-- C6: on every page the selling price returned by the parser is exactly the
value of the first selling-price rule, in list order, whose match is
non-empty currency text lying in no strikethrough or old-price region (such
contained candidates are never accepted; they are exactly what the
reference-price selectors for data-a-strike and a-text-price regions pick
up), and the reference-price loop independently takes the first rule of its
own ordered list with non-empty currency text. -/
theorem amazon_rules_first_match_wins (dom : Dom) :
    (parseAmazonPrices dom).2 = (firstSellingMatch dom sellingSelectors).getD "N/A" ∧
      mrpScan dom mrpSelectors = (firstMrpMatch dom mrpSelectors).getD "N/A" :=
  ⟨sellingScan_eq_firstMatch dom sellingSelectors, mrpScan_eq_firstMatch dom mrpSelectors⟩

/-- C7: on both sites the reference price defaults to the selling price when
only the latter is found: for Amazon, whenever the MRP loop yields N/A and
the selling loop yields a price, both returned fields are equal; for eBazaar,
whenever the raw script state has an empty mrp and a non-empty sellingPrice,
the evaluated result carries the selling price in both fields; in particular
a page with a single selling price and no strikethrough marker parses to
identical fields. -/
theorem default_fill_invariant :
    (∀ dom : Dom, mrpScan dom mrpSelectors = "N/A" →
      sellingScan dom sellingSelectors ≠ "N/A" →
      (parseAmazonPrices dom).1 = (parseAmazonPrices dom).2) ∧
      (∀ d : EbazaarDom, (ebazaarRaw d).1 = "" → (ebazaarRaw d).2 ≠ "" →
        (ebazaarEvaluate d).1 = (ebazaarEvaluate d).2) ∧
      parseAmazonPrices domGood = ("$899.00", "$899.00") := by
  refine ⟨fun dom h1 h2 => ?_, fun d h1 h2 => ?_, by decide⟩
  · simp only [parseAmazonPrices, h1]
    rw [if_pos ⟨trivial, h2⟩]
  · simp only [ebazaarEvaluate]
    rw [if_pos ⟨h1, h2⟩]

/-- C7 witness: the single-selling-price page. -/
theorem default_fill_invariant_witness :
    mrpScan domGood mrpSelectors = "N/A" ∧
      (parseAmazonPrices domGood).1 = (parseAmazonPrices domGood).2 :=
  ⟨by decide, default_fill_invariant.1 domGood (by decide) (by decide)⟩

/-- C8: the eBazaar extraction prefers the structured finalPrice and oldPrice
attribute markers (the claimed 450.00 and 600.00 scenario evaluates to
selling 450 dollars and reference 600 dollars, and with both markers present
the containers are never consulted); when both markers are missing, the first
container with at least two dollar tokens fills the selling price with the
formatted minimum and the reference price with the formatted maximum, and a
sole token in the only container becomes the selling price verbatim, with the
reference price defaulting to it. -/
theorem ebazaar_structured_then_fallback :
    scrapeEbazaar (some ⟨some "450.00", some "600.00", []⟩) = ("$600.00", "$450.00") ∧
      (∀ (a b : String) (conts conts2 : List String), a ≠ "" → b ≠ "" →
        ebazaarEvaluate ⟨some a, some b, conts⟩ =
          ("$" ++ toFixed2 (parseDec b.toList), "$" ++ toFixed2 (parseDec a.toList)) ∧
        ebazaarEvaluate ⟨some a, some b, conts⟩ = ebazaarEvaluate ⟨some a, some b, conts2⟩) ∧
      (∀ (c : String) (rest : List String), (jsMatchPrices c).length ≥ 2 →
        ebazaarEvaluate ⟨none, none, c :: rest⟩ =
          ("$" ++ toFixed2 (decMaxList
              (((jsMatchPrices c).map (fun p => parseDec (stripMoneyChars p))).headD ⟨0, 0⟩)
              (((jsMatchPrices c).map (fun p => parseDec (stripMoneyChars p))).tail)),
            "$" ++ toFixed2 (decMinList
              (((jsMatchPrices c).map (fun p => parseDec (stripMoneyChars p))).headD ⟨0, 0⟩)
              (((jsMatchPrices c).map (fun p => parseDec (stripMoneyChars p))).tail)))) ∧
      (∀ c t : String, jsMatchPrices c = [t] → t ≠ "" →
        ebazaarEvaluate ⟨none, none, [c]⟩ = (t, t)) := by
  refine ⟨by decide, fun a b conts conts2 ha hb => ?_, fun c rest hc => ?_, fun c t hc ht => ?_⟩
  · have hraw : ∀ cs : List String, ebazaarRaw ⟨some a, some b, cs⟩ =
        ("$" ++ toFixed2 (parseDec b.toList), "$" ++ toFixed2 (parseDec a.toList)) := by
      intro cs
      simp [ebazaarRaw, ha, hb, dollar_append_ne_empty]
    constructor
    · simp [ebazaarEvaluate, hraw, dollar_append_ne_empty]
    · simp [ebazaarEvaluate, hraw, dollar_append_ne_empty]
  · have hraw : ebazaarRaw ⟨none, none, c :: rest⟩ =
        ("$" ++ toFixed2 (decMaxList
            (((jsMatchPrices c).map (fun p => parseDec (stripMoneyChars p))).headD ⟨0, 0⟩)
            (((jsMatchPrices c).map (fun p => parseDec (stripMoneyChars p))).tail)),
          "$" ++ toFixed2 (decMinList
            (((jsMatchPrices c).map (fun p => parseDec (stripMoneyChars p))).headD ⟨0, 0⟩)
            (((jsMatchPrices c).map (fun p => parseDec (stripMoneyChars p))).tail))) := by
      simp [ebazaarRaw, ebazaarFallback, hc]
    simp [ebazaarEvaluate, hraw, dollar_append_ne_empty]
  · have hraw : ebazaarRaw ⟨none, none, [c]⟩ = ("", t) := by
      simp [ebazaarRaw, ebazaarFallback, hc]
    simp [ebazaarEvaluate, hraw, ht]

/-- C8 witness: a container with the two tokens 450.00 and 600.00 dollars and
no structured markers. -/
theorem ebazaar_structured_then_fallback_witness :
    (jsMatchPrices c8container).length ≥ 2 ∧
      ebazaarEvaluate ⟨none, none, [c8container]⟩ = ("$600.00", "$450.00") :=
  ⟨by decide, by
    have h := ebazaar_structured_then_fallback.2.2.1 c8container [] (by decide)
    exact h.trans (by decide)⟩

/-- C9: the run loop appends exactly one record per input row, in input
order, whatever the fetch outcomes are (the embedding of every strategy is a
total function of its caught outcome, so no listed failure escapes a row);
and a row on which every strategy fails degrades to a record whose Amazon
fields carry the Failed tag with a pair rejected by the validity gate and
whose eBazaar fields carry the Error sentinel. -/
theorem run_one_row_per_target :
    (∀ (s : ScraperState) (rows : List (TargetRow × TargetOutcomes)),
      ((runScraper s rows).2).length = rows.length ∧
      ((runScraper s rows).2).map (fun p => p.modelName) =
        rows.map (fun rc => rc.1.modelName)) ∧
      (∀ (s : ScraperState) (row : TargetRow),
        linkPresent row.amazonLink = true → linkPresent row.ebazaarLink = true →
        (runRow s row allFailOutcomes).2.amazonMethod = "X" ∧
        isValidPrice (runRow s row allFailOutcomes).2.amazonMrp
          (runRow s row allFailOutcomes).2.amazonSellingPrice = false ∧
        (runRow s row allFailOutcomes).2.ebazaarMrp = "Error" ∧
        (runRow s row allFailOutcomes).2.ebazaarSellingPrice = "Error") := by
  constructor
  · intro s rows
    induction rows generalizing s with
    | nil => exact ⟨rfl, rfl⟩
    | cons rc rest ih =>
      obtain ⟨row, oc⟩ := rc
      obtain ⟨ihl, ihm⟩ := ih (runRow s row oc).1
      refine ⟨?_, ?_⟩
      · simp only [runScraper, List.length_cons, ihl]
      · simp only [runScraper, List.map_cons, ihm, runRow_modelName]
  · intro s row hA hE
    obtain ⟨hm, hv⟩ := scrapeAmazon_allfail s
    have hrow : (runRow s row allFailOutcomes).2 =
        { emptyProduct row with
          amazonMrp := (scrapeAmazon s none none (fun _ => ApiResponse.exn)).mrp
          amazonSellingPrice := (scrapeAmazon s none none (fun _ => ApiResponse.exn)).selling
          amazonMethod := (scrapeAmazon s none none (fun _ => ApiResponse.exn)).method
          ebazaarMrp := "Error"
          ebazaarSellingPrice := "Error" } := by
      simp only [runRow, hA, hE, allFailOutcomes, ite_true, scrapeEbazaar]
    rw [hrow]
    exact ⟨hm, hv, rfl, rfl⟩

/-- C9 witness: a row with both links present and every strategy failing. -/
theorem run_one_row_per_target_witness :
    linkPresent (some "http://a") = true ∧
      ((runRow ⟨["key1"], 0, ∅⟩ ⟨"M1", some "http://a", some "http://e"⟩
          allFailOutcomes).2.amazonMethod = "X" ∧
        isValidPrice (runRow ⟨["key1"], 0, ∅⟩ ⟨"M1", some "http://a", some "http://e"⟩
            allFailOutcomes).2.amazonMrp
          (runRow ⟨["key1"], 0, ∅⟩ ⟨"M1", some "http://a", some "http://e"⟩
            allFailOutcomes).2.amazonSellingPrice = false ∧
        (runRow ⟨["key1"], 0, ∅⟩ ⟨"M1", some "http://a", some "http://e"⟩
          allFailOutcomes).2.ebazaarMrp = "Error" ∧
        (runRow ⟨["key1"], 0, ∅⟩ ⟨"M1", some "http://a", some "http://e"⟩
          allFailOutcomes).2.ebazaarSellingPrice = "Error") :=
  ⟨by decide,
    run_one_row_per_target.2 ⟨["key1"], 0, ∅⟩ ⟨"M1", some "http://a", some "http://e"⟩
      (by decide) (by decide)⟩
